import Mathlib

/-! Shallow embedding of `src/main.py` (`process_sales_data`): a batch
pipeline that reads sales CSV files, keeps the rows of one target product,
computes a derived Sales column, and writes one combined CSV file. -/

/-- One row of an input CSV file, in untyped string form, as produced by
reading the file: the five expected columns. -/
structure InputRow where
  product : String
  price : String
  quantity : String
  date : String
  region : String
  deriving DecidableEq

/-- The state of one input path on disk: absent (the existence guard fails),
present but not readable as tabular data (reading raises), or a table of
rows. -/
inductive FileState where
  | missing : FileState
  | unparseable : FileState
  | table (rows : List InputRow) : FileState
  deriving DecidableEq

/-- Exact decimal number, the model of the numeric values the script
computes: an integer numerator over a power-of-ten denominator.
Multiplication is exact. -/
structure Decimal where
  num : Int
  den : Nat
  deriving DecidableEq

def Decimal.mul (a b : Decimal) : Decimal := ⟨a.num * b.num, a.den * b.den⟩

/-- An output record: the three projected columns of lines 44-45 of the
source, `Sales`, `Date` (the row's `date` verbatim) and `Region` (the row's
`region` verbatim). -/
structure OutputRecord where
  Sales : Decimal
  Date : String
  Region : String
  deriving DecidableEq

def digitsToNat (l : List Char) : Nat :=
  l.foldl (fun a c => a * 10 + (c.toNat - 48)) 0

/-- Remove every literal dollar character from the text, the model of the
global regex replacement on line 35 of the source. -/
def stripDollar (s : String) : String :=
  String.mk (s.data.filter (fun c => c ≠ '$'))

/-- ASCII lower-casing, the model of the lower-casing on line 27. -/
def lowerAscii (s : String) : String := String.mk (s.data.map Char.toLower)

/-- Tail of a float literal after an exponent marker: optional sign and a
nonempty digit run, applied to the mantissa. -/
def parseExpTail (num : Int) (den : Nat) (t : List Char) : Option Decimal :=
  let signAndRest : Bool × List Char :=
    match t with
    | '-' :: u => (true, u)
    | '+' :: u => (false, u)
    | u => (false, u)
  let neg := signAndRest.1
  let ds := signAndRest.2
  if ds.isEmpty || !(ds.all Char.isDigit) then none
  else
    let e := digitsToNat ds
    if neg then some ⟨num, den * 10 ^ e⟩ else some ⟨num * 10 ^ e, den⟩

/-- Parse decimal-notation numeric text the way the script's float
conversions do on well-formed input: optional surrounding whitespace,
optional sign, digits with an optional fractional part, optional decimal
exponent.  Returns `none` when the text is not a valid number (the
`NumericParseError` case). -/
def parseFloat (s : String) : Option Decimal :=
  let cs0 := ((s.data.dropWhile Char.isWhitespace).reverse.dropWhile
    Char.isWhitespace).reverse
  let signAndRest : Int × List Char :=
    match cs0 with
    | '-' :: t => (-1, t)
    | '+' :: t => (1, t)
    | t => (1, t)
  let sign := signAndRest.1
  let cs1 := signAndRest.2
  let intPart := cs1.takeWhile Char.isDigit
  let cs2 := cs1.dropWhile Char.isDigit
  let fracAndRest : List Char × List Char :=
    match cs2 with
    | '.' :: t => (t.takeWhile Char.isDigit, t.dropWhile Char.isDigit)
    | t => ([], t)
  let fracPart := fracAndRest.1
  let cs3 := fracAndRest.2
  if intPart.isEmpty && fracPart.isEmpty then none
  else
    let mantNum : Int :=
      sign * (digitsToNat intPart * 10 ^ fracPart.length + digitsToNat fracPart)
    let mantDen : Nat := 10 ^ fracPart.length
    match cs3 with
    | [] => some ⟨mantNum, mantDen⟩
    | 'e' :: t => parseExpTail mantNum mantDen t
    | 'E' :: t => parseExpTail mantNum mantDen t
    | _ => none

/-- Price normalization and parse of line 35: strip every dollar sign, then
parse the remainder as a float. -/
def parsePrice (s : String) : Option Decimal := parseFloat (stripDollar s)

/-- Quantity parse of line 37. -/
def parseQuantity (s : String) : Option Decimal := parseFloat s

/-- The filter predicate of lines 26-27: the product field, lower-cased,
equals the literal target string. -/
def rowMatches (r : InputRow) : Bool := lowerAscii r.product == "pink morsel"

/-- Transform one filtered row (lines 35-45): parse price and quantity,
compute Sales as their product, copy date and region verbatim.  `none` when
a numeric parse fails. -/
def transformRow (r : InputRow) : Option OutputRecord :=
  match parsePrice r.price with
  | none => none
  | some p =>
    match parseQuantity r.quantity with
    | none => none
    | some q => some ⟨Decimal.mul p q, r.date, r.region⟩

/-- Transform a whole file's filtered rows; fails, like the vectorized
column conversions of lines 35-37, when any single row fails. -/
def transformRows : List InputRow → Option (List OutputRecord)
  | [] => some []
  | r :: rs =>
    match transformRow r, transformRows rs with
    | some o, some os => some (o :: os)
    | _, _ => none

/-- The exceptions that can be raised inside the script's guarded blocks. -/
inductive PyError where
  | parseFailure : PyError
  | numericParseError : PyError
  | writeFailure : PyError
  deriving DecidableEq

/-- The body of the guarded block of lines 21-47 for one file: read the CSV,
filter for the target product, transform.  `Except.error` models a raised
exception, `Except.ok none` the skip on an empty filter result,
`Except.ok (some recs)` a processed table appended to the accumulator. -/
def tryProcessFile (fs : FileState) : Except PyError (Option (List OutputRecord)) :=
  match fs with
  | FileState.missing => Except.ok none
  | FileState.unparseable => Except.error PyError.parseFailure
  | FileState.table rows =>
    let filtered := rows.filter rowMatches
    if filtered.isEmpty then Except.ok none
    else
      match transformRows filtered with
      | none => Except.error PyError.numericParseError
      | some recs => Except.ok (some recs)

/-- One iteration of the loop over input files: the existence guard of
line 17 and the handler of lines 49-50 that reports every error and
continues with the next file. -/
def loopBody (fs : FileState) : Option (List OutputRecord) :=
  match fs with
  | FileState.missing => none
  | fs =>
    match tryProcessFile fs with
    | Except.error _ => none
    | Except.ok t => t

/-- The accumulator after the loop: one table per file that was appended on
line 47, in input order. -/
def pipelineTables (fsys : String → FileState) (inputs : List String) :
    List (List OutputRecord) :=
  inputs.filterMap (fun p => loopBody (fsys p))

/-- The combined data of line 57: concatenation of the per-file tables. -/
def pipelineOutput (fsys : String → FileState) (inputs : List String) :
    List OutputRecord :=
  (pipelineTables fsys inputs).flatten

/-- Number of rows of a file that match the product filter. -/
def matchCount (fs : FileState) : Nat :=
  match fs with
  | FileState.table rows => (rows.filter rowMatches).length
  | _ => 0

/-- Whether the per-file block raised. -/
def isError (r : Except PyError (Option (List OutputRecord))) : Bool :=
  match r with
  | Except.error _ => true
  | Except.ok _ => false

def padZeros (k : Nat) (s : String) : String :=
  String.mk (List.replicate (k - s.length) '0') ++ s

/-- Drop matching trailing decimal zeros of numerator and denominator
(fuel-bounded structural recursion so that it computes by reduction). -/
def trimZerosAux : Nat → Int → Nat → Int × Nat
  | 0, n, d => (n, d)
  | fuel + 1, n, d =>
    if 10 ≤ d ∧ d % 10 = 0 ∧ n % 10 = 0 then trimZerosAux fuel (n / 10) (d / 10)
    else (n, d)

/-- Render a Decimal in shortest decimal notation, the way the CSV writer
renders the float Sales column (6.0, 1.5, ...). -/
def renderSales (x : Decimal) : String :=
  let t := trimZerosAux x.den x.num x.den
  let n := t.1
  let d := t.2
  let sign := if n < 0 then "-" else ""
  let a := n.natAbs
  let k := (toString d).length - 1
  if k = 0 then sign ++ toString (a / d) ++ ".0"
  else sign ++ toString (a / d) ++ "." ++ padZeros k (toString (a % d))

/-- One CSV line per output record: Sales, then Date and Region verbatim,
newline-terminated. -/
def renderRecord (r : OutputRecord) : String :=
  renderSales r.Sales ++ "," ++ r.Date ++ "," ++ r.Region ++ "\n"

/-- The full text written on line 61: the fixed header followed by one line
per record. -/
def csvContent (recs : List OutputRecord) : String :=
  "Sales,Date,Region\n" ++ String.join (recs.map renderRecord)

/-- Outcome reported by a run. -/
inductive RunOutcome where
  | noData : RunOutcome
  | written : RunOutcome
  | writeFailed : RunOutcome
  deriving DecidableEq

/-- Observable final state of a run: the reported outcome and the content of
the output file afterwards (`none` = the file does not exist). -/
structure RunState where
  outcome : RunOutcome
  outputFile : Option String
  deriving DecidableEq

/-- The write of line 61 in overwrite mode: succeeds with the fresh content,
or raises (permission denied, bad path) when the environment makes it
fail. -/
def tryWrite (writeOk : Bool) (content : String) : Except PyError String :=
  if writeOk then Except.ok content else Except.error PyError.writeFailure

/-- The whole of `process_sales_data` (lines 5-66).  `fsys` gives the state
of each input path, `writeOk` whether the final write can succeed, `prior`
the preexisting content of the output file.  The result is `Except.ok` of
the final state when no exception escapes to the caller. -/
def process_sales_data (fsys : String → FileState) (writeOk : Bool)
    (prior : Option String) (inputs : List String) : Except PyError RunState :=
  let tables := pipelineTables fsys inputs
  if tables.isEmpty then Except.ok ⟨RunOutcome.noData, prior⟩
  else
    match tryWrite writeOk (csvContent tables.flatten) with
    | Except.error _ => Except.ok ⟨RunOutcome.writeFailed, prior⟩
    | Except.ok c => Except.ok ⟨RunOutcome.written, some c⟩

/-! Sample data used by the concrete witnesses. -/

def rowPink : InputRow := ⟨"pink morsel", "$1.50", "4", "2024-01-01", "north"⟩

def rowRed : InputRow := ⟨"red morsel", "$2.00", "3", "2024-01-01", "north"⟩

def rowBadQty : InputRow := ⟨"Pink Morsel", "$2.00", "abc", "2024-01-02", "south"⟩

def recPink : OutputRecord := ⟨⟨600, 100⟩, "2024-01-01", "north"⟩

def sampleFs : String → FileState := fun p =>
  if p = "f0" then FileState.table [rowPink, rowRed]
  else if p = "bad" then FileState.table [rowBadQty]
  else if p = "miss" then FileState.missing
  else if p = "unp" then FileState.unparseable
  else FileState.table []

/-! Helper lemmas. -/

theorem transformRows_length {rows : List InputRow} {recs : List OutputRecord}
    (h : transformRows rows = some recs) : recs.length = rows.length := by
  induction rows generalizing recs with
  | nil =>
    simp [transformRows] at h
    simp [h.symm]
  | cons r rs ih =>
    unfold transformRows at h
    cases hr : transformRow r with
    | none => rw [hr] at h; simp at h
    | some o =>
      cases hrs : transformRows rs with
      | none => rw [hr, hrs] at h; simp at h
      | some os =>
        rw [hr, hrs] at h
        simp at h
        simp [h.symm, ih hrs]

theorem transformRow_none_of_parse_none {r : InputRow}
    (h : parsePrice r.price = none ∨ parseQuantity r.quantity = none) :
    transformRow r = none := by
  rcases h with h | h
  · simp [transformRow, h]
  · unfold transformRow
    cases hp : parsePrice r.price with
    | none => rfl
    | some p => rw [h]

theorem transformRows_none_of_mem {rows : List InputRow} {r : InputRow}
    (hmem : r ∈ rows) (h : transformRow r = none) : transformRows rows = none := by
  induction rows with
  | nil => cases hmem
  | cons a rs ih =>
    unfold transformRows
    rcases List.mem_cons.mp hmem with rfl | hr
    · rw [h]
    · cases ha : transformRow a with
      | none => rfl
      | some o => rw [ih hr]

theorem tryProcessFile_ok_some_eq {rows : List InputRow} {recs : List OutputRecord}
    (h : tryProcessFile (FileState.table rows) = Except.ok (some recs)) :
    transformRows (rows.filter rowMatches) = some recs := by
  unfold tryProcessFile at h
  by_cases he : (rows.filter rowMatches).isEmpty
  · simp [he] at h
  · simp only [he, if_false, Bool.false_eq_true, if_neg] at h
    cases ht : transformRows (rows.filter rowMatches) with
    | none => rw [ht] at h; simp at h
    | some recs2 => rw [ht] at h; simp at h; rw [h]

theorem loopBody_none_of_skip {fs : FileState}
    (h : fs = FileState.missing ∨ isError (tryProcessFile fs) = true ∨
      tryProcessFile fs = Except.ok none) : loopBody fs = none := by
  rcases h with rfl | h | h
  · rfl
  · cases fs with
    | missing => rfl
    | unparseable =>
      cases ht : tryProcessFile FileState.unparseable with
      | error e => simp [loopBody, ht]
      | ok t => rw [ht] at h; simp [isError] at h
    | table rows =>
      cases ht : tryProcessFile (FileState.table rows) with
      | error e => simp [loopBody, ht]
      | ok t => rw [ht] at h; simp [isError] at h
  · cases fs with
    | missing => rfl
    | unparseable => simp [loopBody, h]
    | table rows => simp [loopBody, h]

theorem loopBody_some_length {fs : FileState} {recs : List OutputRecord}
    (h : loopBody fs = some recs) : recs.length = matchCount fs := by
  cases fs with
  | missing => simp [loopBody] at h
  | unparseable => simp [loopBody, tryProcessFile] at h
  | table rows =>
    have h2 : tryProcessFile (FileState.table rows) = Except.ok (some recs) := by
      cases ht : tryProcessFile (FileState.table rows) with
      | error e => simp [loopBody, ht] at h
      | ok t => simp [loopBody, ht] at h; rw [h]
    have h3 := tryProcessFile_ok_some_eq h2
    simp [matchCount, transformRows_length h3]

/-! Claim theorems. -/

/-- C1: a non-matching input row (product lower-cased differs from
"pink morsel") contributes no output record; the per-file output is produced
exactly from the subsequence of matching rows, in their original order. -/
theorem filter_retains_exactly_matching (rows : List InputRow)
    (recs : List OutputRecord)
    (h : tryProcessFile (FileState.table rows) = Except.ok (some recs)) :
    transformRows (rows.filter rowMatches) = some recs ∧
      ∀ r ∈ rows, rowMatches r = false → r ∉ rows.filter rowMatches := by
  refine ⟨tryProcessFile_ok_some_eq h, ?_⟩
  intro r _ hm hmem
  have htrue := (List.mem_filter.mp hmem).2
  rw [hm] at htrue
  cases htrue

theorem filter_retains_exactly_matching_witness :
    transformRows ([rowPink, rowRed].filter rowMatches) = some [recPink] :=
  (filter_retains_exactly_matching [rowPink, rowRed] [recPink] (by rfl)).1

/-- C2: for a retained row that transforms successfully, the price parses
(after removing every dollar sign), the quantity parses, and the Sales field
is exactly their product. -/
theorem sales_is_price_times_quantity (r : InputRow) (o : OutputRecord)
    (h : transformRow r = some o) :
    (parsePrice r.price).isSome = true ∧ (parseQuantity r.quantity).isSome = true ∧
      ∀ p q, parsePrice r.price = some p → parseQuantity r.quantity = some q →
        o.Sales = Decimal.mul p q := by
  unfold transformRow at h
  cases hp : parsePrice r.price with
  | none => rw [hp] at h; simp at h
  | some p =>
    cases hq : parseQuantity r.quantity with
    | none => rw [hp, hq] at h; simp at h
    | some q =>
      rw [hp, hq] at h
      simp at h
      subst h
      refine ⟨rfl, rfl, ?_⟩
      intro p2 q2 hp2 hq2
      cases hp2
      cases hq2
      rfl

theorem sales_is_price_times_quantity_witness :
    recPink.Sales = Decimal.mul ⟨150, 100⟩ ⟨4, 1⟩ :=
  (sales_is_price_times_quantity rowPink recPink (by rfl)).2.2 ⟨150, 100⟩ ⟨4, 1⟩
    (by rfl) (by rfl)

/-- C3: a per-file error (missing file, unparseable file, numeric parse
failure) is caught at the file boundary: that file contributes nothing to
the output and the remaining files are processed unchanged; moreover one bad
price or quantity among the matching rows makes the whole file fail. -/
theorem per_file_errors_isolated :
    (∀ (fsys : String → FileState) (p : String) (pre post : List String),
        (fsys p = FileState.missing ∨ isError (tryProcessFile (fsys p)) = true) →
        pipelineOutput fsys (pre ++ p :: post) = pipelineOutput fsys (pre ++ post)) ∧
    (∀ rows : List InputRow,
        (∃ r ∈ rows.filter rowMatches,
            parsePrice r.price = none ∨ parseQuantity r.quantity = none) →
        tryProcessFile (FileState.table rows) = Except.error PyError.numericParseError) := by
  constructor
  · intro fsys p pre post h
    have hnone : loopBody (fsys p) = none :=
      loopBody_none_of_skip (by rcases h with h | h; exact Or.inl h; exact Or.inr (Or.inl h))
    simp [pipelineOutput, pipelineTables, List.filterMap_append, List.filterMap_cons, hnone]
  · intro rows h
    rcases h with ⟨r, hmem, hbad⟩
    have hne : (rows.filter rowMatches).isEmpty = false := by
      cases hf : rows.filter rowMatches with
      | nil => rw [hf] at hmem; cases hmem
      | cons a l => simp
    have htr : transformRows (rows.filter rowMatches) = none :=
      transformRows_none_of_mem hmem (transformRow_none_of_parse_none hbad)
    simp only [tryProcessFile]
    rw [hne]
    simp [htr]

theorem per_file_errors_isolated_witness :
    pipelineOutput sampleFs (["f0"] ++ "bad" :: ["f0"]) =
      pipelineOutput sampleFs (["f0"] ++ ["f0"]) ∧
    tryProcessFile (FileState.table [rowBadQty]) =
      Except.error PyError.numericParseError :=
  ⟨per_file_errors_isolated.1 sampleFs "bad" ["f0"] ["f0"] (Or.inr (by rfl)),
    per_file_errors_isolated.2 [rowBadQty] ⟨rowBadQty, by decide, Or.inr (by rfl)⟩⟩

/-- C4: the number of output rows equals the sum, over the input files whose
per-file processing succeeded (parsed, at least one match, numerics parsed),
of that file's count of rows matching the product filter. -/
theorem output_row_count_eq_sum_filtered (fsys : String → FileState)
    (inputs : List String) :
    (pipelineOutput fsys inputs).length =
      (inputs.map (fun p =>
        if (loopBody (fsys p)).isSome then matchCount (fsys p) else 0)).sum := by
  induction inputs with
  | nil => simp [pipelineOutput, pipelineTables]
  | cons p rest ih =>
    cases h : loopBody (fsys p) with
    | none =>
      simp only [pipelineOutput, pipelineTables, List.filterMap_cons, h] at ih ⊢
      simp [h, ih]
    | some recs =>
      simp only [pipelineOutput, pipelineTables, List.filterMap_cons, h] at ih ⊢
      simp [h, ih, loopBody_some_length h]

/-- C5: the output is the concatenation of the per-file tables in the order
the input files were supplied, each file's rows kept in their within-file
order: a successful file's block appears between the output of the files
before it and the output of the files after it. -/
theorem output_concatenation_order (fsys : String → FileState) (p : String)
    (pre post : List String) (recs : List OutputRecord)
    (h : loopBody (fsys p) = some recs) :
    pipelineOutput fsys (pre ++ p :: post) =
      pipelineOutput fsys pre ++ recs ++ pipelineOutput fsys post := by
  simp [pipelineOutput, pipelineTables, List.filterMap_append, List.filterMap_cons, h]

theorem output_concatenation_order_witness :
    pipelineOutput sampleFs (["bad"] ++ "f0" :: ["miss"]) =
      pipelineOutput sampleFs ["bad"] ++ [recPink] ++ pipelineOutput sampleFs ["miss"] :=
  output_concatenation_order sampleFs "f0" ["bad"] ["miss"] [recPink] (by rfl)

/-- C6: when every input file is missing, unparseable, has no matching row,
or fails numeric parsing, the run reports NoDataProcessed, the output file
is left exactly as it was (not created, not written), and the run returns
normally. -/
theorem no_data_no_write (fsys : String → FileState) (writeOk : Bool)
    (prior : Option String) (inputs : List String)
    (h : ∀ p ∈ inputs,
      fsys p = FileState.missing ∨
      tryProcessFile (fsys p) = Except.error PyError.parseFailure ∨
      tryProcessFile (fsys p) = Except.ok none ∨
      tryProcessFile (fsys p) = Except.error PyError.numericParseError) :
    process_sales_data fsys writeOk prior inputs =
      Except.ok ⟨RunOutcome.noData, prior⟩ := by
  have ht : pipelineTables fsys inputs = [] := by
    rw [pipelineTables, List.filterMap_eq_nil_iff]
    intro p hp
    rcases h p hp with hc | hc | hc | hc
    · exact loopBody_none_of_skip (Or.inl hc)
    · exact loopBody_none_of_skip (Or.inr (Or.inl (by rw [hc]; rfl)))
    · exact loopBody_none_of_skip (Or.inr (Or.inr hc))
    · exact loopBody_none_of_skip (Or.inr (Or.inl (by rw [hc]; rfl)))
  simp [process_sales_data, ht]

theorem no_data_no_write_witness :
    process_sales_data sampleFs true (some "old content")
        ["miss", "unp", "f1", "bad"] =
      Except.ok ⟨RunOutcome.noData, some "old content"⟩ :=
  no_data_no_write sampleFs true (some "old content") ["miss", "unp", "f1", "bad"]
    (by
      intro p hp
      simp only [List.mem_cons, List.not_mem_nil, or_false] at hp
      rcases hp with rfl | rfl | rfl | rfl
      · exact Or.inl rfl
      · exact Or.inr (Or.inl rfl)
      · exact Or.inr (Or.inr (Or.inl rfl))
      · exact Or.inr (Or.inr (Or.inr rfl)))

/-- C7: when at least one per-file table was accumulated and the write can
succeed, the run writes, for any prior state of the destination, exactly the
header line `Sales,Date,Region` followed by one line per output record with
the record's Date and Region fields verbatim; and the transformer copies
Date and Region verbatim from the source row's date and region fields. -/
theorem writer_header_and_rows :
    (∀ (fsys : String → FileState) (prior : Option String) (inputs : List String),
        pipelineTables fsys inputs ≠ [] →
        process_sales_data fsys true prior inputs =
          Except.ok ⟨RunOutcome.written, some ("Sales,Date,Region\n" ++
            String.join ((pipelineOutput fsys inputs).map (fun r =>
              renderSales r.Sales ++ "," ++ r.Date ++ "," ++ r.Region ++ "\n")))⟩) ∧
    (∀ (r : InputRow) (o : OutputRecord), transformRow r = some o →
        o.Date = r.date ∧ o.Region = r.region) := by
  constructor
  · intro fsys prior inputs h
    have he : (pipelineTables fsys inputs).isEmpty = false := by
      cases hp : pipelineTables fsys inputs with
      | nil => exact absurd hp h
      | cons a l => simp
    simp only [process_sales_data, he, Bool.false_eq_true, if_false, tryWrite, if_pos,
      csvContent, pipelineOutput, renderRecord]
    rfl
  · intro r o h
    unfold transformRow at h
    cases hp : parsePrice r.price with
    | none => rw [hp] at h; simp at h
    | some p =>
      cases hq : parseQuantity r.quantity with
      | none => rw [hp, hq] at h; simp at h
      | some q =>
        rw [hp, hq] at h
        simp at h
        subst h
        exact ⟨rfl, rfl⟩

theorem writer_header_and_rows_witness :
    process_sales_data sampleFs true (some "old content") ["f0"] =
      Except.ok ⟨RunOutcome.written, some ("Sales,Date,Region\n" ++
        String.join ((pipelineOutput sampleFs ["f0"]).map (fun r =>
          renderSales r.Sales ++ "," ++ r.Date ++ "," ++ r.Region ++ "\n")))⟩ ∧
    recPink.Date = rowPink.date ∧ recPink.Region = rowPink.region :=
  ⟨writer_header_and_rows.1 sampleFs (some "old content") ["f0"] (by decide),
    writer_header_and_rows.2 rowPink recPink (by rfl)⟩

/-- C8: a second run on the same file system, input list and output path,
starting from the file state the first run left behind, reproduces exactly
the first run's final state: the output file content is byte-identical. -/
theorem second_run_same_output (fsys : String → FileState) (inputs : List String)
    (prior : Option String) (st1 : RunState)
    (h : process_sales_data fsys true prior inputs = Except.ok st1) :
    process_sales_data fsys true st1.outputFile inputs = Except.ok st1 := by
  simp only [process_sales_data] at h ⊢
  cases hp : pipelineTables fsys inputs with
  | nil =>
    rw [hp] at h
    simp at h
    subst h
    simp
  | cons t ts =>
    rw [hp] at h
    simp [tryWrite] at h
    subst h
    simp [tryWrite]

theorem second_run_same_output_witness :
    process_sales_data sampleFs true
        (some "Sales,Date,Region\n6.0,2024-01-01,north\n") ["f0"] =
      Except.ok ⟨RunOutcome.written,
        some "Sales,Date,Region\n6.0,2024-01-01,north\n"⟩ :=
  second_run_same_output sampleFs ["f0"] none
    ⟨RunOutcome.written, some "Sales,Date,Region\n6.0,2024-01-01,north\n"⟩ (by rfl)

/-- C9: the product comparison is exact equality after lower-casing, with no
whitespace trimming and no substring matching: trailing-space,
leading-space and empty product values are excluded, any product whose
lower-casing is exactly "pink morsel" is retained, and on a concrete file
only the mixed-case exact spelling survives to the output. -/
theorem exact_match_no_trimming :
    rowMatches ⟨"pink morsel ", "$2", "3", "d", "r"⟩ = false ∧
    rowMatches ⟨" Pink Morsel", "$2", "3", "d", "r"⟩ = false ∧
    rowMatches ⟨"", "$2", "3", "d", "r"⟩ = false ∧
    (∀ r : InputRow, lowerAscii r.product = "pink morsel" → rowMatches r = true) ∧
    pipelineOutput (fun _ => FileState.table
        [⟨"PiNk MoRsEl", "$2", "3", "d1", "r1"⟩, ⟨"pink morsel ", "$2", "3", "d2", "r2"⟩,
         ⟨" Pink Morsel", "$2", "3", "d3", "r3"⟩, ⟨"", "$2", "3", "d4", "r4"⟩]) ["f"] =
      [⟨⟨6, 1⟩, "d1", "r1"⟩] := by
  refine ⟨by decide, by decide, by decide, ?_, by decide⟩
  intro r h
  simp [rowMatches, h]

theorem exact_match_no_trimming_witness :
    rowMatches ⟨"PINK MORSEL", "$2", "3", "d", "r"⟩ = true :=
  exact_match_no_trimming.2.2.2.1 ⟨"PINK MORSEL", "$2", "3", "d", "r"⟩ (by decide)

/-- C10: for every file system, write environment, prior output state and
input list, the run returns normally: every per-file error is caught inside
the loop and a failing final write is caught and reported, so no exception
reaches the caller. -/
theorem no_exception_escapes (fsys : String → FileState) (writeOk : Bool)
    (prior : Option String) (inputs : List String) :
    ∃ st : RunState, process_sales_data fsys writeOk prior inputs = Except.ok st := by
  cases he : (pipelineTables fsys inputs).isEmpty with
  | true => exact ⟨⟨RunOutcome.noData, prior⟩, by simp [process_sales_data, he]⟩
  | false =>
    cases writeOk with
    | true =>
      exact ⟨⟨RunOutcome.written,
        some (csvContent (pipelineTables fsys inputs).flatten)⟩,
        by simp [process_sales_data, he, tryWrite]⟩
    | false =>
      exact ⟨⟨RunOutcome.writeFailed, prior⟩,
        by simp [process_sales_data, he, tryWrite]⟩
